import Mathlib

/-!
Verification of the keyra in-memory key-value server against its
natural-language specification.

The Go sources are shallowly embedded: Go maps (`map[string]T`) become
association lists `GoMap T` (iteration order of a Go map is unspecified,
so list order carries no meaning; all observations go through `lookup`),
in-place mutation becomes functional state passing, `time.Now()` becomes
an explicit `now : Int` parameter (instants in seconds), and fallible Go
returns `(T, bool)` / `(T, error)` become `Option` / `Except`.

Sorted-set scores are `float64` in Go; the claims settled here depend only
on the linear order of scores (the spec rejects NaN), so scores are
modelled by the linearly ordered type `Int`, and `strconv.ParseFloat` by
decimal-integer parsing on the integer-representable fragment.
-/

set_option maxRecDepth 100000

namespace Keyra

/-- Go `map[string]α`, embedded as an association list.  All code paths in
the sources observe maps only through keyed lookup, keyed update, keyed
delete and (unordered) iteration, which the list supports. -/
abbrev GoMap (α : Type) := List (String × α)

/-- Keyed lookup, `m[k]` with `ok` reported by `Option`. -/
def lookup {α : Type} : GoMap α → String → Option α
  | [], _ => none
  | (k', v) :: t, k => if k = k' then some v else lookup t k

/-- Keyed lookup with Go's zero-value default (`m[k]` when absent). -/
def lookupD {α : Type} (m : GoMap α) (k : String) (d : α) : α :=
  (lookup m k).getD d

/-- Go map assignment `m[k] = v` (replaces any previous binding). -/
def mapInsert {α : Type} (m : GoMap α) (k : String) (v : α) : GoMap α :=
  (k, v) :: m.filter (fun p => ¬ p.1 = k)

/-- Go `delete(m, k)`. -/
def mapErase {α : Type} (m : GoMap α) (k : String) : GoMap α :=
  m.filter (fun p => ¬ p.1 = k)

/-! ## RESP encoders (`protocol/resp.go`) -/

/-- `protocol.EncodeSimpleString`. -/
def EncodeSimpleString (s : String) : String := "+" ++ s ++ "\r\n"

/-- `protocol.EncodeBulkString`.  Note the source encodes the empty string
as the null bulk reply. -/
def EncodeBulkString (s : String) : String :=
  if s = "" then "$-1\r\n"
  else "$" ++ toString s.length ++ "\r\n" ++ s ++ "\r\n"

/-- `protocol.EncodeInteger`. -/
def EncodeInteger (i : Int) : String := ":" ++ toString i ++ "\r\n"

/-- `protocol.EncodeError`.  The source unconditionally prefixes `ERR `. -/
def EncodeError (msg : String) : String := "-ERR " ++ msg ++ "\r\n"

/-! ## Go integer parsing (`strconv.Atoi` / `strconv.ParseInt`) -/

/-- Decimal value of a digit run; `none` if empty or any non-digit. -/
def digitsVal : List Char → Option Nat
  | [] => none
  | [c] => if c.isDigit then some (c.toNat - '0'.toNat) else none
  | c :: rest =>
    if c.isDigit then
      (digitsVal rest).map (fun n => (c.toNat - '0'.toNat) * 10 ^ rest.length + n)
    else none

/-- `strconv.ParseInt(s, 10, 64)` (also `strconv.Atoi` on a 64-bit
platform), with Go's returned pair: on a syntax error the value is 0, on a
range error it is the clamped 64-bit bound; the `Bool` is `err == nil`. -/
def goParseIntRaw (s : String) : Int × Bool :=
  let sign : Option (Bool × List Char) :=
    match s.data with
    | [] => none
    | c :: rest =>
      if c = '-' then some (true, rest)
      else if c = '+' then some (false, rest)
      else some (false, s.data)
  match sign with
  | none => (0, false)
  | some (neg, ds) =>
    match digitsVal ds with
    | none => (0, false)
    | some n =>
      let v : Int := if neg then -(n : Int) else (n : Int)
      if v < -(2 ^ 63) then (-(2 ^ 63), false)
      else if 2 ^ 63 - 1 < v then (2 ^ 63 - 1, false)
      else (v, true)

/-- `strconv.ParseInt` as used by callers that take the error branch. -/
def goParseInt (s : String) : Option Int :=
  let (v, ok) := goParseIntRaw s
  if ok then some v else none


/-! ## Go string helpers (character-level, since the corresponding
`String` library functions do not kernel-reduce) -/

/-- `strings.ToUpper` (the sources only ever feed it ASCII command
words). -/
def goToUpper (s : String) : String := ⟨s.data.map Char.toUpper⟩


/-- Character-level worker for `strings.Split` with a one-character
separator. -/
def splitChar (c : Char) : List Char → List (List Char)
  | [] => [[]]
  | x :: xs =>
    let r := splitChar c xs
    if x = c then [] :: r
    else
      match r with
      | h :: t => (x :: h) :: t
      | [] => [[x]]

/-- `strings.Split(s, "-")`. -/
def goSplitDash (s : String) : List String :=
  (splitChar '-' s.data).map (fun cs => ⟨cs⟩)


/-- `strings.HasSuffix(id, "-*")`. -/
def goHasSuffixDashStar (id : String) : Bool :=
  decide (id.data.drop (id.data.length - 2) = ['-', '*'] ∧ 2 ≤ id.data.length)

/-- `strings.TrimSuffix(id, "-*")`, called only after the suffix check. -/
def goTrimSuffixDashStar (id : String) : String :=
  ⟨id.data.take (id.data.length - 2)⟩


/-! ## Data model (`store/store.go`, `store/streams.go`) -/

/-- Sorted-set scores.  `float64` in the source; modelled by the linearly
ordered `Int` (the claims here depend only on the order, and the spec
rejects NaN). -/
abbrev Score := Int

/-- `store.ZSetMember`. -/
structure ZSetMember where
  member : String
  score : Score
  deriving DecidableEq, Repr

/-- `store.ZSet`: by-member score lookup plus by-(score, member) ordered
projection. -/
structure ZSet where
  Members : GoMap Score
  Sorted : List ZSetMember
  deriving DecidableEq, Repr

/-- `store.StreamEntry`. -/
structure StreamEntry where
  ID : String
  Fields : GoMap String
  deriving DecidableEq, Repr

/-- `store.Stream`.  Modelled from the spec: the `Stream` struct is not
among the provided source files; its fields are taken from its uses in
`store/streams.go` and from `persistence.StreamData`, which the sources
say mirrors it (consumer groups are omitted — no claim here touches
them). -/
structure Stream where
  Entries : List StreamEntry
  LastID : String
  FirstID : String
  deriving DecidableEq, Repr

/-- Modelled from the spec: `store.NewStream` is not among the provided
source files; per its uses it constructs the empty stream. -/
def NewStream : Stream := ⟨[], "", ""⟩

/-- `store.RedisValue`: in the source a struct with a `Type` tag plus one
field per shape; embedded as the tagged variant the spec describes (§9
"Type-tagged values"), which carries the same observable content. -/
inductive RedisValue where
  | str (s : String)
  | list (xs : List String)
  | hash (h : GoMap String)
  | set (m : GoMap Bool)
  | zset (z : ZSet)
  | stream (st : Stream)
  deriving DecidableEq, Repr

/-- The `Type` tag of a value (`store.DataType`). -/
inductive DataType where
  | StringType | ListType | HashType | SetType | ZSetType | StreamType
  deriving DecidableEq, Repr

def RedisValue.Type : RedisValue → DataType
  | .str _ => .StringType
  | .list _ => .ListType
  | .hash _ => .HashType
  | .set _ => .SetType
  | .zset _ => .ZSetType
  | .stream _ => .StreamType

/-- `store.Database`: key → value plus key → expiration instant. -/
structure Database where
  data : GoMap RedisValue
  expiration : GoMap Int
  deriving DecidableEq, Repr

def newDatabase : Database := ⟨[], []⟩

/-- `store.Store`: 16 logical databases plus the (single, store-wide)
currently selected index.  The Go array `[16]*Database` is a total map on
indices 0..15; indices outside that range are never dereferenced because
every source path guards them, which the embedded operations reproduce. -/
structure Store where
  databases : Nat → Database
  currentDB : Nat

/-- `store.NewInMemory` / the in-memory part of `store.New`: sixteen empty
databases, selected index 0. -/
def Store.initial : Store := ⟨fun _ => newDatabase, 0⟩

def Store.getCurrentDB (s : Store) : Database := s.databases s.currentDB

/-- Replace the currently selected database (functional image of the
source's in-place mutation through the `*Database` pointer). -/
def Store.putCurrentDB (s : Store) (db : Database) : Store :=
  { s with databases := fun i => if i = s.currentDB then db else s.databases i }

/-- `Store.isExpired`: an expiration record exists and `now` is strictly
after it. -/
def Database.isExpired (db : Database) (now : Int) (key : String) : Bool :=
  match lookup db.expiration key with
  | some t => now > t
  | none => false

/-- `Store.cleanupExpired`. -/
def Database.cleanupExpired (db : Database) (now : Int) (key : String) : Database :=
  if db.isExpired now key then
    ⟨mapErase db.data key, mapErase db.expiration key⟩
  else db

/-! ## Store operations (`store/store.go`) -/

/-- `Store.Set`: store a string, clearing any prior expiration. -/
def Store.Set (s : Store) (key value : String) : Store :=
  let db := s.getCurrentDB
  s.putCurrentDB ⟨mapInsert db.data key (.str value), mapErase db.expiration key⟩

/-- `Store.SetWithExpiration`. -/
def Store.SetWithExpiration (s : Store) (key value : String) (expiration : Int) :
    Store :=
  let db := s.getCurrentDB
  s.putCurrentDB ⟨mapInsert db.data key (.str value), mapInsert db.expiration key expiration⟩

/-- `Store.Get`: lazily expires the key, then returns the string value if
present with the right type. -/
def Store.Get (s : Store) (now : Int) (key : String) : Option String × Store :=
  let db := (s.getCurrentDB).cleanupExpired now key
  let s' := s.putCurrentDB db
  match lookup db.data key with
  | some (.str v) => (some v, s')
  | _ => (none, s')

/-- `Store.Del`. -/
def Store.Del (s : Store) (key : String) : Bool × Store :=
  let db := s.getCurrentDB
  match lookup db.data key with
  | some _ => (true, s.putCurrentDB ⟨mapErase db.data key, mapErase db.expiration key⟩)
  | none => (false, s)

/-- `Store.Expire`: installs `now + seconds` if the key exists (instants
in milliseconds).  Note the source does not call `cleanupExpired`
first. -/
def Store.Expire (s : Store) (now : Int) (key : String) (seconds : Int) :
    Bool × Store :=
  let db := s.getCurrentDB
  match lookup db.data key with
  | none => (false, s)
  | some _ =>
    (true, s.putCurrentDB ⟨db.data, mapInsert db.expiration key (now + seconds * 1000)⟩)

/-- `Store.TTL`: -2 absent, -1 persistent, else remaining whole seconds
(again -2 when negative). -/
def Store.TTL (s : Store) (now : Int) (key : String) : Int × Store :=
  let db := (s.getCurrentDB).cleanupExpired now key
  let s' := s.putCurrentDB db
  match lookup db.data key with
  | none => (-2, s')
  | some _ =>
    match lookup db.expiration key with
    | some t =>
      let remaining := (t - now) / 1000
      if remaining < 0 then (-2, s') else (remaining, s')
    | none => (-1, s')

/-- The member-insertion loop of `Store.SAdd`. -/
def sAddLoop : GoMap Bool → List String → Nat → GoMap Bool × Nat
  | set, [], count => (set, count)
  | set, member :: rest, count =>
    if lookupD set member false then sAddLoop set rest count
    else sAddLoop (mapInsert set member true) rest (count + 1)

/-- `Store.SAdd` (store.go:1118): creates an empty set if the key is
absent, returns 0 on wrong type.  Note the source does not call
`cleanupExpired` first. -/
def Store.SAdd (s : Store) (key : String) (members : List String) : Int × Store :=
  let db := s.getCurrentDB
  match lookup db.data key with
  | none =>
    let (set, count) := sAddLoop [] members 0
    (count, s.putCurrentDB ⟨mapInsert db.data key (.set set), db.expiration⟩)
  | some (.set set₀) =>
    let (set, count) := sAddLoop set₀ members 0
    (count, s.putCurrentDB ⟨mapInsert db.data key (.set set), db.expiration⟩)
  | some _ => (0, s)

/-- `Store.SelectDB`: bounds-checks, then mutates the store-wide
`currentDB` field shared by every connection. -/
def Store.SelectDB (s : Store) (dbIndex : Int) : Bool × Store :=
  if dbIndex < 0 ∨ 16 ≤ dbIndex then (false, s)
  else (true, { s with currentDB := dbIndex.toNat })

/-- `Store.GetCurrentDBIndex` (`GetCurrentDB` in the AOF loader). -/
def Store.GetCurrentDBIndex (s : Store) : Nat := s.currentDB

/-- `Store.FlushDB`. -/
def Store.FlushDB (s : Store) : Store := s.putCurrentDB newDatabase

/-- `Store.GetRaw`.  Modelled from the spec: the function is not among the
provided source files; per its call sites in the WATCH/EXEC code it is the
raw current-database lookup (value plus existence), without expiry
cleanup. -/
def Store.GetRaw (s : Store) (key : String) : Option RedisValue × Bool :=
  match lookup (s.getCurrentDB).data key with
  | some v => (some v, true)
  | none => (none, false)

/-- `Store.SMove` (store.go:1478, in-place revision): removes the member
from the source set first; when the destination holds a non-set value it
returns `true` anyway, leaving the destination untouched and the member
dropped. -/
def Store.SMove (s : Store) (source destination member : String) : Bool × Store :=
  let db := s.getCurrentDB
  match lookup db.data source with
  | some (.set srcSet) =>
    if lookupD srcSet member false then
      let srcSet' := mapErase srcSet member
      let db₁ : Database :=
        if srcSet'.length = 0 then
          ⟨mapErase db.data source, mapErase db.expiration source⟩
        else ⟨mapInsert db.data source (.set srcSet'), db.expiration⟩
      match lookup db₁.data destination with
      | none =>
        (true, s.putCurrentDB
          ⟨mapInsert db₁.data destination (.set (mapInsert [] member true)),
           db₁.expiration⟩)
      | some (.set dstSet) =>
        (true, s.putCurrentDB
          ⟨mapInsert db₁.data destination (.set (mapInsert dstSet member true)),
           db₁.expiration⟩)
      | some _ => (true, s.putCurrentDB db₁)
    else (false, s)
  | _ => (false, s)

/-- `Store.SMove` (part_008:352, copy-on-write revision): when the
destination is absent *or holds a non-set value*, a fresh set is built, so
a wrong-typed destination is silently replaced by `{member}`. -/
def Store.SMoveV2 (s : Store) (source destination member : String) : Bool × Store :=
  let db := s.getCurrentDB
  match lookup db.data source with
  | some (.set srcSet) =>
    if lookupD srcSet member false then
      let srcSet' := mapErase srcSet member
      let db₁ : Database :=
        if srcSet'.length = 0 then ⟨mapErase db.data source, db.expiration⟩
        else ⟨mapInsert db.data source (.set srcSet'), db.expiration⟩
      let dstSet :=
        match lookup db₁.data destination with
        | some (.set d) => d
        | _ => []
      (true, s.putCurrentDB
        ⟨mapInsert db₁.data destination (.set (mapInsert dstSet member true)),
         db₁.expiration⟩)
    else (false, s)
  | _ => (false, s)

/-- `Server.handleSMove` (server.go:1431). -/
def handleSMove (s : Store) (args : List String) : String × Store :=
  if args.length < 3 then
    (EncodeError "wrong number of arguments for 'smove' command", s)
  else
    let source := args.headD ""
    let destination := (args.drop 1).headD ""
    let member := (args.drop 2).headD ""
    let (ok, s') := s.SMove source destination member
    (if ok then EncodeInteger 1 else EncodeInteger 0, s')

/-! ## Sorted sets (`store/zsets.go`, store.go:1538) -/

def newZSet : ZSet := ⟨[], []⟩

/-- The predicate handed to `sort.Search` inside `ZSet.add`:
`Sorted[i].Member >= member` at equal scores, else `Sorted[i].Score > score`. -/
def addPred (member : String) (score : Score) (m : ZSetMember) : Bool :=
  if m.score = score then member ≤ m.member else score < m.score

/-- The append-and-shift insertion of `ZSet.add` (`sort.Search` finds the
leftmost predicate-true index; the element is placed there). -/
def insertAt : Nat → ZSetMember → List ZSetMember → List ZSetMember
  | 0, x, l => x :: l
  | _ + 1, x, [] => [x]
  | n + 1, x, a :: t => a :: insertAt n x t

/-- `(*ZSet).add`: update the by-member map; if the member already
existed, remove its old entry from the ordered projection; insert the new
entry at the leftmost position where the order predicate holds.  Returns
`true` iff the member is new. -/
def ZSet.add (zs : ZSet) (member : String) (score : Score) : ZSet × Bool :=
  let exists_ := (lookup zs.Members member).isSome
  let members' := mapInsert zs.Members member score
  let sorted₁ :=
    if exists_ then zs.Sorted.eraseP (fun m => m.member == member) else zs.Sorted
  let pos := sorted₁.findIdx (addPred member score)
  (⟨members', insertAt pos ⟨member, score⟩ sorted₁⟩, !exists_)

/-- `(*ZSet).remove`. -/
def ZSet.remove (zs : ZSet) (member : String) : ZSet × Bool :=
  if (lookup zs.Members member).isSome then
    (⟨mapErase zs.Members member, zs.Sorted.eraseP (fun m => m.member == member)⟩,
     true)
  else (zs, false)

/-- The zset-level body of `Store.ZIncrBy` (zsets.go:364): read the
current score with the map's zero-value default, add the increment, and
reinsert through `add`. -/
def ZSet.incrBy (zs : ZSet) (member : String) (increment : Score) : ZSet × Score :=
  let currentScore := lookupD zs.Members member 0
  let newScore := currentScore + increment
  ((zs.add member newScore).1, newScore)

/-- The pair loop of `Store.ZAdd` (store.go:1667): parse each score,
skipping unparsable ones, and `add` each (score, member) pair. -/
def zAddPairsLoop : ZSet → List String → Int → ZSet × Int
  | zs, scoreStr :: member :: rest, added =>
    (match goParseInt scoreStr with
     | none => zAddPairsLoop zs rest added
     | some sc =>
       let (zs', isNew) := zs.add member sc
       zAddPairsLoop zs' rest (if isNew then added + 1 else added))
  | zs, _, added => (zs, added)

/-- `Store.ZAdd` (store.go:1667, `[]string` revision): -1 on an odd
argument list or a wrong-typed key, else the count of newly added
members. -/
def Store.ZAddCmd (s : Store) (key : String) (scoreMembers : List String) :
    Int × Store :=
  if scoreMembers.length % 2 ≠ 0 then (-1, s)
  else
    let db := s.getCurrentDB
    match lookup db.data key with
    | none =>
      let (zs, added) := zAddPairsLoop newZSet scoreMembers 0
      (added, s.putCurrentDB ⟨mapInsert db.data key (.zset zs), db.expiration⟩)
    | some (.zset zs₀) =>
      let (zs, added) := zAddPairsLoop zs₀ scoreMembers 0
      (added, s.putCurrentDB ⟨mapInsert db.data key (.zset zs), db.expiration⟩)
    | some _ => (-1, s)

/-- `Server.handleZAdd` (part_003:12): a wrong-typed key produces the
WRONGTYPE message — wrapped by `EncodeError`, which prefixes `ERR `. -/
def handleZAdd (s : Store) (args : List String) : String × Store :=
  if args.length < 3 ∨ args.length % 2 = 0 then
    (EncodeError "wrong number of arguments for 'zadd' command", s)
  else
    let key := args.headD ""
    let scoreMembers := args.tail
    let (added, s') := s.ZAddCmd key scoreMembers
    if added = -1 then
      (EncodeError "WRONGTYPE Operation against a key holding the wrong kind of value", s')
    else (EncodeInteger added, s')

/-! ## Sorted-set invariant (claim C6) -/

/-- A single sorted-set mutation: the per-member operations performed by
`Store.ZAdd` (both revisions fold `ZSet.add` over their (score, member)
pairs), `Store.ZRem` (folds `ZSet.remove`) and `Store.ZIncrBy`
(`ZSet.incrBy`). -/
inductive ZOp where
  | addOp (member : String) (score : Score)
  | remOp (member : String)
  | incrOp (member : String) (delta : Score)

def ZSet.applyOp (zs : ZSet) : ZOp → ZSet
  | .addOp m sc => (zs.add m sc).1
  | .remOp m => (zs.remove m).1
  | .incrOp m d => (zs.incrBy m d).1

def ZSet.applyOps (zs : ZSet) (ops : List ZOp) : ZSet :=
  ops.foldl ZSet.applyOp zs

/-- The strict (score, member) lexicographic order of the ordered
projection: ascending score, ties broken by ascending member. -/
def zLT (a b : ZSetMember) : Prop :=
  a.score < b.score ∨ (a.score = b.score ∧ a.member < b.member)

/-- The dual-projection invariant: the ordered projection is strictly
sorted by (score, member), and its entries are exactly the graph of the
by-member lookup. -/
structure ZSet.Consistent (zs : ZSet) : Prop where
  sorted : zs.Sorted.Pairwise zLT
  complete : ∀ m sc,
    lookup zs.Members m = some sc ↔ (⟨m, sc⟩ : ZSetMember) ∈ zs.Sorted

/-! ## Streams (`store/streams.go`) -/

/-- `parseStreamID`: split on `-`; anything but exactly two parts gives
(0, 0); parse errors are ignored, keeping Go's returned value. -/
def parseStreamID (id : String) : Int × Int :=
  let parts := goSplitDash id
  if parts.length ≠ 2 then (0, 0)
  else ((goParseIntRaw (parts.headD "")).1, (goParseIntRaw ((parts.drop 1).headD "")).1)

/-- `compareStreamIDs`. -/
def compareStreamIDs (a b : String) : Int :=
  let (aTime, aSeq) := parseStreamID a
  let (bTime, bSeq) := parseStreamID b
  if aTime < bTime then -1
  else if aTime > bTime then 1
  else if aSeq < bSeq then -1
  else if aSeq > bSeq then 1
  else 0

/-- `isValidStreamID`. -/
def isValidStreamID (id : String) : Bool :=
  let parts := goSplitDash id
  if parts.length ≠ 2 then false
  else (goParseIntRaw (parts.headD "")).2 && (goParseIntRaw ((parts.drop 1).headD "")).2

/-- `Store.generateStreamID`: auto (`*`), partial (`ms-*`) or explicit ID
generation and validation. -/
def generateStreamID (now : Int) (stream : Stream) (id : String) :
    Except String String :=
  if id = "*" then
    let p : Int × Int :=
      if stream.LastID ≠ "" then
        let (lastTime, lastSeq) := parseStreamID stream.LastID
        if now = lastTime then (now, lastSeq + 1)
        else if now < lastTime then (lastTime, lastSeq + 1)
        else (now, 0)
      else (now, 0)
    .ok (toString p.1 ++ "-" ++ toString p.2)
  else if goHasSuffixDashStar id then
    let timeStr := goTrimSuffixDashStar id
    match goParseInt timeStr with
    | none => .error "ERR Invalid stream ID specified as stream command argument"
    | some specTime =>
      if stream.LastID ≠ "" then
        let (lastTime, lastSeq) := parseStreamID stream.LastID
        if specTime = lastTime then .ok (toString specTime ++ "-" ++ toString (lastSeq + 1))
        else if specTime < lastTime then
          .error "ERR The ID specified in XADD is equal or smaller than the target stream top item"
        else .ok (toString specTime ++ "-0")
      else .ok (toString specTime ++ "-0")
  else
    if stream.LastID ≠ "" ∧ compareStreamIDs id stream.LastID ≤ 0 then
      .error "ERR The ID specified in XADD is equal or smaller than the target stream top item"
    else if ¬ isValidStreamID id then
      .error "ERR Invalid stream ID specified as stream command argument"
    else .ok id

/-- Appending an entry plus the MAXLEN trimming of `Store.XAdd`. -/
def streamAfterAdd (st : Stream) (entryID : String) (fields : GoMap String)
    (maxLen : Int) (approximate : Bool) : Stream :=
  let entries := st.Entries ++ [⟨entryID, fields⟩]
  let st₁ : Stream :=
    ⟨entries, entryID, if st.FirstID = "" then entryID else st.FirstID⟩
  if maxLen > 0 then
    if approximate then
      if (st₁.Entries.length : Int) > maxLen + 100 then
        let trimCount := (st₁.Entries.length : Int) - maxLen
        let entries' := st₁.Entries.drop trimCount.toNat
        ⟨entries', st₁.LastID,
         if entries'.length > 0 then (entries'.headD ⟨"", []⟩).ID else st₁.FirstID⟩
      else st₁
    else
      if (st₁.Entries.length : Int) > maxLen then
        let trimCount := (st₁.Entries.length : Int) - maxLen
        let entries' := st₁.Entries.drop trimCount.toNat
        ⟨entries', st₁.LastID,
         if entries'.length > 0 then (entries'.headD ⟨"", []⟩).ID else st₁.FirstID⟩
      else st₁
  else st₁

/-- `Store.XAdd` (streams.go:11).  When the key is absent an empty stream
is installed *before* ID generation, so even a failing call leaves it
behind; when the key holds a stream, a failing call leaves the store
untouched. -/
def Store.XAdd (s : Store) (now : Int) (key id : String) (fields : GoMap String)
    (maxLen : Int) (approximate : Bool) : Except String String × Store :=
  let db := s.getCurrentDB
  match lookup db.data key with
  | some (.stream st) =>
    (match generateStreamID now st id with
     | .error e => (.error e, s)
     | .ok entryID =>
       let st' := streamAfterAdd st entryID fields maxLen approximate
       (.ok entryID,
        s.putCurrentDB ⟨mapInsert db.data key (.stream st'), db.expiration⟩))
  | some _ =>
    (.error "WRONGTYPE Operation against a key holding the wrong kind of value", s)
  | none =>
    let db₀ : Database := ⟨mapInsert db.data key (.stream NewStream), db.expiration⟩
    (match generateStreamID now NewStream id with
     | .error e => (.error e, s.putCurrentDB db₀)
     | .ok entryID =>
       let st' := streamAfterAdd NewStream entryID fields maxLen approximate
       (.ok entryID,
        s.putCurrentDB ⟨mapInsert db₀.data key (.stream st'), db₀.expiration⟩))

/-! ## Server command handlers (part_001 revision) -/

/-- `Server.handleGet` (part_001:370): an absent key and a present key are
both rendered through `EncodeBulkString`, the former via the empty
string. -/
def handleGet (s : Store) (now : Int) (args : List String) : String × Store :=
  if args.length < 1 then
    (EncodeError "wrong number of arguments for 'get' command", s)
  else
    let key := args.headD ""
    let (value, s') := s.Get now key
    match value with
    | none => (EncodeBulkString "", s')
    | some v => (EncodeBulkString v, s')

/-- `Server.handleSet` (part_001:327) with the `EX`/`PX` option loop
(every arm of the loop body returns). -/
def handleSet (s : Store) (now : Int) (args : List String) : String × Store :=
  if args.length < 2 then
    (EncodeError "wrong number of arguments for 'set' command", s)
  else
    let key := args.headD ""
    let value := (args.drop 1).headD ""
    if args.length > 2 then
      if args.length ≤ 3 then (EncodeError "syntax error", s)
      else
        let option := goToUpper ((args.drop 2).headD "")
        let optionValue := (args.drop 3).headD ""
        if option = "EX" then
          match goParseInt optionValue with
          | some seconds =>
            if seconds ≤ 0 then (EncodeError "invalid expire time in set", s)
            else
              (EncodeSimpleString "OK",
               s.SetWithExpiration key value (now + seconds * 1000))
          | none => (EncodeError "invalid expire time in set", s)
        else if option = "PX" then
          match goParseInt optionValue with
          | some ms =>
            if ms ≤ 0 then (EncodeError "invalid expire time in set", s)
            else (EncodeSimpleString "OK", s.SetWithExpiration key value (now + ms))
          | none => (EncodeError "invalid expire time in set", s)
        else (EncodeError "syntax error", s)
    else (EncodeSimpleString "OK", s.Set key value)

/-- `Server.handleDel`. -/
def handleDel (s : Store) (args : List String) : String × Store :=
  if args.length < 1 then
    (EncodeError "wrong number of arguments for 'del' command", s)
  else
    let (count, s') :=
      args.foldl (fun (acc : Int × Store) key =>
        let (deleted, st) := acc.2.Del key
        (if deleted then acc.1 + 1 else acc.1, st)) (0, s)
    (EncodeInteger count, s')

/-- `Server.handleExpire` (part_001:427). -/
def handleExpire (s : Store) (now : Int) (args : List String) : String × Store :=
  if args.length < 2 then
    (EncodeError "wrong number of arguments for 'expire' command", s)
  else
    match goParseInt ((args.drop 1).headD "") with
    | none => (EncodeError "value is not an integer or out of range", s)
    | some seconds =>
      let (success, s') := s.Expire now (args.headD "") seconds
      (if success then EncodeInteger 1 else EncodeInteger 0, s')

/-- `Server.handleTTL` (part_001:417). -/
def handleTTL (s : Store) (now : Int) (args : List String) : String × Store :=
  if args.length < 1 then
    (EncodeError "wrong number of arguments for 'ttl' command", s)
  else
    let (ttl, s') := s.TTL now (args.headD "")
    (EncodeInteger ttl, s')

/-- `Server.handleSAdd` (part_001:1003). -/
def handleSAdd (s : Store) (args : List String) : String × Store :=
  if args.length < 2 then
    (EncodeError "wrong number of arguments for 'sadd' command", s)
  else
    let (count, s') := s.SAdd (args.headD "") args.tail
    (EncodeInteger count, s')

/-- `Server.handleSelect` (part_001:759): no connection parameter at all —
it flips the store-wide selected database. -/
def handleSelect (s : Store) (args : List String) : String × Store :=
  if args.length < 1 then
    (EncodeError "wrong number of arguments for 'select' command", s)
  else
    match goParseInt (args.headD "") with
    | none => (EncodeError "invalid DB index", s)
    | some dbIndex =>
      let (ok, s') := s.SelectDB dbIndex
      if ok then (EncodeSimpleString "OK", s')
      else (EncodeError "invalid DB index", s')

/-! ## Transactions (part_000) -/

/-- `server.QueuedCommand`. -/
structure QueuedCommand where
  Command : String
  Args : List String
  deriving DecidableEq, Repr

/-- `server.TransactionContext`: the `State` flag (`InTransaction`), the
command queue and the WATCH snapshots (`map[string]interface{}`, holding
the `GetRaw` value or Go `nil` for an absent key). -/
structure TransactionContext where
  State : Bool
  Queue : List QueuedCommand
  WatchedKeys : GoMap (Option RedisValue)
  deriving DecidableEq, Repr

def NewTransactionContext : TransactionContext := ⟨false, [], []⟩

/-- The per-server state the transaction code touches: the shared store
plus the per-connection transaction contexts. -/
structure Server where
  store : Store
  transactionContexts : GoMap TransactionContext

/-- `Server.getTransactionContext`: fetch, creating and storing a fresh
context when absent. -/
def getTransactionContext (sv : Server) (connKey : String) :
    TransactionContext × Server :=
  match lookup sv.transactionContexts connKey with
  | some ctx => (ctx, sv)
  | none =>
    (NewTransactionContext,
     { sv with
        transactionContexts :=
          mapInsert sv.transactionContexts connKey NewTransactionContext })

/-- `Server.executeCommandWithoutTransactionCheck` (part_000:215).  The
source dispatches ~90 command names to their handlers; this embedding
covers the handlers defined in this development (the ones the claims
exercise) and keeps the source's default arm for the rest.  Unembedded
commands are never queued by any theorem below. -/
def executeCommandWithoutTransactionCheck (now : Int) (st : Store)
    (command : String) (args : List String) : String × Store :=
  if command = "SET" then handleSet st now args
  else if command = "GET" then handleGet st now args
  else if command = "DEL" then handleDel st args
  else if command = "EXPIRE" then handleExpire st now args
  else if command = "TTL" then handleTTL st now args
  else if command = "SADD" then handleSAdd st args
  else if command = "SMOVE" then handleSMove st args
  else if command = "ZADD" then handleZAdd st args
  else if command = "SELECT" then handleSelect st args
  else (EncodeError ("unknown command '" ++ command ++ "'"), st)

/-- `Server.handleMulti`.  `StartTransaction` resets the queue but leaves
the watched keys in place. -/
def handleMulti (sv : Server) (args : List String) (connKey : String) :
    String × Server :=
  if args.length ≠ 0 then
    (EncodeError "wrong number of arguments for 'multi' command", sv)
  else
    let (ctx, sv₁) := getTransactionContext sv connKey
    if ctx.State then (EncodeError "MULTI calls can not be nested", sv₁)
    else
      (EncodeSimpleString "OK",
       { sv₁ with
          transactionContexts :=
            mapInsert sv₁.transactionContexts connKey
              { ctx with State := true, Queue := [] } })

/-- `TransactionContext.QueueCommand` applied through the server map. -/
def queueCommand (sv : Server) (connKey command : String) (args : List String) :
    Server :=
  let (ctx, sv₁) := getTransactionContext sv connKey
  if ctx.State then
    { sv₁ with
       transactionContexts :=
         mapInsert sv₁.transactionContexts connKey
           { ctx with Queue := ctx.Queue ++ [⟨command, args⟩] } }
  else sv₁

/-- `Server.handleWatch`: snapshots each key's current `GetRaw` value
into the watched map. -/
def handleWatch (sv : Server) (args : List String) (connKey : String) :
    String × Server :=
  if args.length = 0 then
    (EncodeError "wrong number of arguments for 'watch' command", sv)
  else
    let (ctx, sv₁) := getTransactionContext sv connKey
    if ctx.State then (EncodeError "WATCH inside MULTI is not allowed", sv₁)
    else
      let watched :=
        args.foldl (fun acc key => mapInsert acc key (sv₁.store.GetRaw key).1)
          ctx.WatchedKeys
      (EncodeSimpleString "OK",
       { sv₁ with
          transactionContexts :=
            mapInsert sv₁.transactionContexts connKey
              { ctx with WatchedKeys := watched } })

/-- `Server.handleExec` (part_000:137): validates the argument count and
the transaction state, then *unconditionally* executes every queued
command in order and returns their replies as an array; the watched-key
map is only ever cleared (the deferred `ClearWatchedKeys`), never
checked — `CheckWatchedKeys` has no caller. -/
def handleExec (now : Int) (sv : Server) (args : List String) (connKey : String) :
    String × Server :=
  if args.length ≠ 0 then
    (EncodeError "wrong number of arguments for 'exec' command", sv)
  else
    let (ctx, sv₁) := getTransactionContext sv connKey
    if ¬ ctx.State then (EncodeError "EXEC without MULTI", sv₁)
    else
      let (results, store') :=
        ctx.Queue.foldl
          (fun (acc : List String × Store) cmd =>
            let (result, st) :=
              executeCommandWithoutTransactionCheck now acc.2 cmd.Command cmd.Args
            (acc.1 ++ [result], st))
          ([], sv₁.store)
      let response :=
        "*" ++ toString results.length ++ "\r\n" ++ String.join results
      (response,
       { store := store',
         transactionContexts :=
           mapInsert sv₁.transactionContexts connKey NewTransactionContext })

/-! ## Persistence (`persistence/persistence.go`, store.go:212) -/

/-- Build a map by iterating another and keeping transformed entries under
the same keys — the shape of every copy loop in the persistence code. -/
def keyedFilterMap {α β : Type} (g : String → α → Option β) (l : GoMap α) :
    GoMap β :=
  l.filterMap (fun p => (g p.1 p.2).map (fun b => (p.1, b)))

/-- `persistence.DataType`. -/
inductive PDataType where
  | StringType | ListType | HashType | SetType | ZSetType | JSONType | StreamType
  deriving DecidableEq, Repr

/-- `persistence.SerializedValue` restricted to the fields the legacy
string-only save path populates and the load path reads; the remaining
fields are zero-valued in every snapshot this path writes.  (`typeTag` is
the source's `Type` field, which Lean reserves.) -/
structure SerializedValue where
  typeTag : PDataType
  StringValue : String
  deriving DecidableEq, Repr

/-- `persistence.DatabaseSnapshot`. -/
structure DatabaseSnapshot where
  Data : GoMap SerializedValue
  Expiration : GoMap Int

/-- `persistence.DataSnapshot`: 16 database snapshots (the gob file is
abstracted as this value; gob encode/decode of it is lossless). -/
structure DataSnapshot where
  Databases : Nat → DatabaseSnapshot

/-- `persistence.Save` (legacy, persistence.go:173): the string-only data
goes to database 0 as `StringType` records, every other database is
empty. -/
def persistenceSave (data : GoMap String) (expiration : GoMap Int) : DataSnapshot :=
  ⟨fun i =>
    if i = 0 then
      ⟨keyedFilterMap (fun _ v => some (⟨.StringType, v⟩ : SerializedValue)) data,
       expiration⟩
    else ⟨[], []⟩⟩

/-- The per-database body of `persistence.LoadDatabases`: drop entries
already expired at load time, keep the expiration record only for kept
keys that had one. -/
def loadDatabaseSnapshot (now : Int) (snap : DatabaseSnapshot) : DatabaseSnapshot :=
  let kept :=
    keyedFilterMap
      (fun k v =>
        match lookup snap.Expiration k with
        | some t => if now > t then none else some v
        | none => some v)
      snap.Data
  ⟨kept, keyedFilterMap (fun k _ => lookup snap.Expiration k) kept⟩

/-- `persistence.Load` (legacy, persistence.go:194): database 0 only,
string-typed records only. -/
def persistenceLoad (now : Int) (snap : DataSnapshot) : GoMap String × GoMap Int :=
  let db0 := loadDatabaseSnapshot now (snap.Databases 0)
  (keyedFilterMap
     (fun _ sv => if sv.typeTag = PDataType.StringType then some sv.StringValue else none)
     db0.Data,
   db0.Expiration)

/-- `Store.Save` (store.go:212): only database 0, only string values
(the source's own TODOs note the other databases and types are not
serialized). -/
def Store.Save (s : Store) : DataSnapshot :=
  let db := s.databases 0
  let dataCopy :=
    keyedFilterMap
      (fun _ v => match v with | RedisValue.str sv => some sv | _ => none) db.data
  persistenceSave dataCopy db.expiration

/-- `Store.Load` (store.go:239): merge the loaded strings into database 0
and replace its expiration table. -/
def Store.Load (s : Store) (now : Int) (snap : DataSnapshot) : Store :=
  let (data, expiration) := persistenceLoad now snap
  let db := s.databases 0
  let data' := data.foldl (fun acc p => mapInsert acc p.1 (.str p.2)) db.data
  { s with
     databases := fun i => if i = 0 then ⟨data', expiration⟩ else s.databases i }

/-- Snapshot write → restart → snapshot read (`store.New` starts from
sixteen empty databases and calls `Load`). -/
def snapshotRoundTrip (s : Store) (now : Int) : Store :=
  Store.Load Store.initial now s.Save

/-! ## AOF startup (part_004) -/

/-- `Server.executeCommandDirectly` (part_004:162): the replay dispatcher
used while loading the AOF (SET, DEL, EXPIRE, SELECT, FLUSHDB, FLUSHALL;
anything else is ignored). -/
def executeCommandDirectly (now : Int) (st : Store) (cmd : List String) : Store :=
  let command := goToUpper (cmd.headD "")
  let args := cmd.tail
  if command = "SET" then
    if args.length ≥ 2 then st.Set (args.headD "") ((args.drop 1).headD "") else st
  else if command = "DEL" then
    args.foldl (fun acc key => (acc.Del key).2) st
  else if command = "EXPIRE" then
    if args.length ≥ 2 then (handleExpire st now args).2 else st
  else if command = "SELECT" then
    if args.length ≥ 1 then (handleSelect st args).2 else st
  else if command = "FLUSHDB" then st.FlushDB
  else if command = "FLUSHALL" then
    (List.range 16).foldl
      (fun acc i =>
        let currentDB := acc.GetCurrentDBIndex
        let acc₁ := (acc.SelectDB (i : Int)).2
        let acc₂ := acc₁.FlushDB
        (acc₂.SelectDB (currentDB : Int)).2)
      st
  else st

/-- `Server.loadFromAOF` (part_004:142): replay each non-empty command. -/
def loadFromAOF (now : Int) (st : Store) (commands : List (List String)) : Store :=
  commands.foldl
    (fun acc c => if c.length > 0 then executeCommandDirectly now acc c else acc) st

/-- Startup with both persistence mechanisms: `store.New` always loads the
snapshot (store.go:78 calls `s.Load()` unconditionally); afterwards
`initializeAOF` (part_004:118) replays the AOF commands on top when AOF is
enabled. -/
def serverStartup (snap : DataSnapshot) (now : Int) (aofEnabled : Bool)
    (aofCommands : List (List String)) : Store :=
  let s := Store.Load Store.initial now snap
  if aofEnabled then loadFromAOF now s aofCommands else s

/-! ## Shared helper lemmas -/

theorem lookup_filter_ne {α : Type} (m : GoMap α) (k k' : String) :
    lookup (m.filter (fun p => ¬ p.1 = k)) k' =
      if k' = k then none else lookup m k' := by
  induction m with
  | nil => simp [lookup]
  | cons p t ih =>
    cases p with
    | mk pk pv =>
      by_cases hp : pk = k
      · rw [show List.filter (fun p => decide ¬ p.1 = k) ((pk, pv) :: t)
              = List.filter (fun p => decide ¬ p.1 = k) t by simp [hp]]
        rw [ih]
        by_cases h : k' = k
        · simp [h]
        · have hk : ¬ k' = pk := by rw [hp]; exact h
          simp [h, lookup, hk]
      · rw [show List.filter (fun p => decide ¬ p.1 = k) ((pk, pv) :: t)
              = (pk, pv) :: List.filter (fun p => decide ¬ p.1 = k) t by simp [hp]]
        by_cases hk : k' = pk
        · have h : ¬ k' = k := by rw [hk]; exact hp
          simp [lookup, hk, h, hp]
        · simp only [lookup, if_neg hk]
          exact ih

theorem lookup_mapInsert {α : Type} (m : GoMap α) (k k' : String) (v : α) :
    lookup (mapInsert m k v) k' = if k' = k then some v else lookup m k' := by
  by_cases h : k' = k
  · simp [mapInsert, lookup, h]
  · simp only [mapInsert, lookup, if_neg h]
    rw [lookup_filter_ne, if_neg h]

theorem lookup_mapErase {α : Type} (m : GoMap α) (k k' : String) :
    lookup (mapErase m k) k' = if k' = k then none else lookup m k' := by
  simpa [mapErase] using lookup_filter_ne m k k'

theorem getCurrentDB_putCurrentDB (s : Store) (db : Database) :
    (s.putCurrentDB db).getCurrentDB = db := by
  simp [Store.putCurrentDB, Store.getCurrentDB]

/-! ## Claims -/

/-- Claim C2: the claim says `SELECT n` changes the selected database of
the issuing connection only.  In the code `handleSelect` takes no
connection identifier and `Store.SelectDB` mutates the single store-wide
`currentDB` field, so one connection's SELECT redirects every other
connection: before it, a GET of `k` (from any connection) answers `v0`
from database 0; after another connection's `SELECT 1`, the same GET
answers the null bulk because it now reads database 1. -/
theorem select_is_global_not_per_connection :
    let store₂ : Store :=
      ⟨fun i => if i = 0 then ⟨[("k", .str "v0")], []⟩ else newDatabase, 0⟩
    (handleGet store₂ 0 ["k"]).1 = "$2\r\nv0\r\n"
    ∧ (handleSelect store₂ ["1"]).1 = "+OK\r\n"
    ∧ ((handleSelect store₂ ["1"]).2).currentDB = 1
    ∧ (handleGet ((handleSelect store₂ ["1"]).2) 0 ["k"]).1 = "$-1\r\n" := by
  refine ⟨by decide, by decide, by decide, by decide⟩

/-- Claim C3: the claim says every operation after the expiration instant
first deletes the key and sees it as absent.  Reads do (TTL answers -2),
but `Store.Expire` and `Store.SAdd` never call `cleanupExpired`: with key
`s` holding `{a}` and an expiration instant 10, at `now = 11` SADD still
finds the stale set and extends it to `{b, a}` returning 1, and EXPIRE
returns `true` and installs a fresh expiration — reviving the key instead
of treating it as absent. -/
theorem writes_after_expiry_revive_key :
    let store₃ : Store :=
      ⟨fun i => if i = 0 then ⟨[("s", .set [("a", true)])], [("s", 10)]⟩
        else newDatabase, 0⟩
    (store₃.TTL 11 "s").1 = -2
    ∧ (store₃.SAdd "s" ["b"]).1 = 1
    ∧ lookup (((store₃.SAdd "s" ["b"]).2).getCurrentDB).data "s"
        = some (.set [("b", true), ("a", true)])
    ∧ (store₃.Expire 11 "s" 100).1 = true
    ∧ lookup (((store₃.Expire 11 "s" 100).2).getCurrentDB).expiration "s"
        = some 100011 := by
  refine ⟨by decide, by decide, by decide, by decide, by decide⟩

/-- Claim C9 (counterexample): the key `e` holds the empty string — it is
present, yet GET returns the null bulk reply `$-1\r\n`, because
`EncodeBulkString` renders the empty string as null. -/
theorem get_empty_string_returns_null :
    let store₉ : Store :=
      ⟨fun i => if i = 0 then ⟨[("e", .str "")], []⟩ else newDatabase, 0⟩
    (store₉.Get 0 "e").1 = some ""
    ∧ (handleGet store₉ 0 ["e"]).1 = "$-1\r\n" := by
  refine ⟨by decide, by decide⟩

/-- Claim C9 (amended): for a key holding string `v`, GET returns the bulk
reply carrying the bytes of `v` when `v` is non-empty; the null bulk reply
is returned both when the key is absent and when `v` is the empty
string. -/
theorem get_returns_bulk_or_null (s : Store) (now : Int) (k v : String)
    (s' : Store) (h : s.Get now k = (some v, s')) :
    handleGet s now [k] =
      (if v = "" then "$-1\r\n"
       else "$" ++ toString v.length ++ "\r\n" ++ v ++ "\r\n", s') := by
  have h1 : (s.Get now k).1 = some v := by rw [h]
  have h2 : (s.Get now k).2 = s' := by rw [h]
  simp only [handleGet, List.length_cons, List.length_nil, List.headD]
  norm_num
  rw [h1, h2]
  simp [EncodeBulkString]

/-- Claim C9 (amended, witness): instantiation at a store holding
`g ↦ "v0"`. -/
theorem get_returns_bulk_or_null_witness :
    (handleGet ⟨fun i => if i = 0 then ⟨[("g", .str "v0")], []⟩ else newDatabase, 0⟩
        0 ["g"]).1 =
      (if "v0" = "" then "$-1\r\n"
       else "$" ++ toString "v0".length ++ "\r\n" ++ "v0" ++ "\r\n") := by
  have h :
      (⟨fun i => if i = 0 then ⟨[("g", .str "v0")], []⟩ else newDatabase, 0⟩ : Store).Get
          0 "g"
        = (some "v0",
           ((⟨fun i => if i = 0 then ⟨[("g", .str "v0")], []⟩ else newDatabase,
              0⟩ : Store).Get 0 "g").2) := rfl
  exact congrArg Prod.fst (get_returns_bulk_or_null _ 0 "g" "v0" _ h)

/-- Claim C8 (counterexample): ZADD against a string-typed key.  The
handler passes the `WRONGTYPE ...` message to `EncodeError`, which
prefixes `ERR `, so the wire reply begins `-ERR WRONGTYPE`, not
`-WRONGTYPE`. -/
theorem wrongtype_reply_not_tagged_first :
    let store₈ : Store :=
      ⟨fun i => if i = 0 then ⟨[("k", .str "x")], []⟩ else newDatabase, 0⟩
    (handleZAdd store₈ ["k", "1", "m"]).1
        = "-ERR WRONGTYPE Operation against a key holding the wrong kind of value\r\n"
    ∧ ((handleZAdd store₈ ["k", "1", "m"]).1).data.take 10 ≠ "-WRONGTYPE".data := by
  refine ⟨by decide, by decide⟩

/-- Claim C8 (amended): every type-error reply is wrapped by
`EncodeError`, so it begins with `-ERR `, with the `WRONGTYPE` tag
following — i.e. the reply begins `-ERR WRONGTYPE`, never bare
`-WRONGTYPE`. -/
theorem zadd_wrongtype_reply (s : Store) (key : String) (sm : List String)
    (v : RedisValue)
    (h1 : lookup (s.getCurrentDB).data key = some v)
    (h2 : ∀ z, v ≠ .zset z)
    (h3 : sm.length % 2 = 0) (h4 : 2 ≤ sm.length) :
    (handleZAdd s (key :: sm)).1
      = "-ERR WRONGTYPE Operation against a key holding the wrong kind of value\r\n"
    ∧ ((handleZAdd s (key :: sm)).1).data.take 14 = "-ERR WRONGTYPE".data := by
  have hc1 : ¬ ((key :: sm).length < 3 ∨ (key :: sm).length % 2 = 0) := by
    simp only [List.length_cons]
    omega
  have hfst : (handleZAdd s (key :: sm)).1
      = "-ERR WRONGTYPE Operation against a key holding the wrong kind of value\r\n" := by
    simp only [handleZAdd, if_neg hc1, List.headD, List.tail_cons, Store.ZAddCmd]
    rw [if_neg (by omega : ¬ sm.length % 2 ≠ 0)]
    rw [h1]
    cases v with
    | zset z => exact absurd rfl (h2 z)
    | str a => simp [EncodeError]
    | list a => simp [EncodeError]
    | hash a => simp [EncodeError]
    | set a => simp [EncodeError]
    | stream a => simp [EncodeError]
  exact ⟨hfst, by rw [hfst]; decide⟩

/-- Claim C8 (amended, witness): instantiation at a string-typed key. -/
theorem zadd_wrongtype_reply_witness :
    (handleZAdd ⟨fun i => if i = 0 then ⟨[("w", .str "x")], []⟩ else newDatabase, 0⟩
        ["w", "2", "mm"]).1
      = "-ERR WRONGTYPE Operation against a key holding the wrong kind of value\r\n" := by
  exact (zadd_wrongtype_reply _ "w" ["2", "mm"] (.str "x") (by decide)
    (by intro z h; cases h) (by decide) (by decide)).1

/-- Claim C10: when the source set contains the member but the destination
holds a non-set value, both SMove revisions report success (the handler
replies `:1`, not a WRONGTYPE error) and both remove the member from the
source (deleting the source key if it became empty); the in-place revision
(store.go) leaves the wrong-typed destination untouched — discarding the
member — while the copy-on-write revision (part_008) silently replaces the
destination with the fresh set `{member}`. -/
theorem smove_wrongtype_destination (s : Store) (source destination member : String)
    (ms : GoMap Bool) (dv : RedisValue)
    (hsrc : lookup (s.getCurrentDB).data source = some (.set ms))
    (hmem : lookupD ms member false = true)
    (hdst : lookup (s.getCurrentDB).data destination = some dv)
    (hdv : ∀ m', dv ≠ .set m') :
    (s.SMove source destination member).1 = true
    ∧ lookup (((s.SMove source destination member).2).getCurrentDB).data destination
        = some dv
    ∧ lookup (((s.SMove source destination member).2).getCurrentDB).data source
        = (if (mapErase ms member).length = 0 then none
           else some (.set (mapErase ms member)))
    ∧ (s.SMoveV2 source destination member).1 = true
    ∧ lookup (((s.SMoveV2 source destination member).2).getCurrentDB).data destination
        = some (.set [(member, true)])
    ∧ (handleSMove s [source, destination, member]).1 = EncodeInteger 1 := by
  have hne : ¬ destination = source := by
    intro he
    rw [he, hsrc] at hdst
    exact hdv ms (by injection hdst with h; exact h.symm)
  have hh : handleSMove s [source, destination, member]
      = (if (s.SMove source destination member).1 then EncodeInteger 1
         else EncodeInteger 0,
         (s.SMove source destination member).2) := rfl
  cases dv
  case set m' => exact absurd rfl (hdv m')
  all_goals (
    by_cases hlen : (mapErase ms member).length = 0
    · have hdst₁ : lookup (mapErase (s.getCurrentDB).data source) destination
          = lookup (s.getCurrentDB).data destination := by
        rw [lookup_mapErase, if_neg hne]
      have hv1 : s.SMove source destination member
          = (true, s.putCurrentDB
              ⟨mapErase (s.getCurrentDB).data source,
               mapErase (s.getCurrentDB).expiration source⟩) := by
        simp [Store.SMove, hsrc, hmem, hlen, hdst₁, hdst]
      have hv2 : s.SMoveV2 source destination member
          = (true, s.putCurrentDB
              ⟨mapInsert (mapErase (s.getCurrentDB).data source) destination
                 (.set (mapInsert [] member true)),
               (s.getCurrentDB).expiration⟩) := by
        simp [Store.SMoveV2, hsrc, hmem, hlen, hdst₁, hdst]
      refine ⟨by rw [hv1], ?_, ?_, by rw [hv2], ?_, ?_⟩
      · rw [hv1, getCurrentDB_putCurrentDB]
        exact hdst₁.trans hdst
      · rw [hv1, getCurrentDB_putCurrentDB, if_pos hlen]
        simp [lookup_mapErase]
      · rw [hv2, getCurrentDB_putCurrentDB, lookup_mapInsert]
        simp [mapInsert]
      · rw [hh, hv1]
        simp
    · have hdst₁ :
          lookup (mapInsert (s.getCurrentDB).data source (.set (mapErase ms member)))
            destination = lookup (s.getCurrentDB).data destination := by
        rw [lookup_mapInsert, if_neg hne]
      have hv1 : s.SMove source destination member
          = (true, s.putCurrentDB
              ⟨mapInsert (s.getCurrentDB).data source (.set (mapErase ms member)),
               (s.getCurrentDB).expiration⟩) := by
        simp [Store.SMove, hsrc, hmem, hlen, hdst₁, hdst]
      have hv2 : s.SMoveV2 source destination member
          = (true, s.putCurrentDB
              ⟨mapInsert
                 (mapInsert (s.getCurrentDB).data source
                    (.set (mapErase ms member)))
                 destination (.set (mapInsert [] member true)),
               (s.getCurrentDB).expiration⟩) := by
        simp [Store.SMoveV2, hsrc, hmem, hlen, hdst₁, hdst]
      refine ⟨by rw [hv1], ?_, ?_, by rw [hv2], ?_, ?_⟩
      · rw [hv1, getCurrentDB_putCurrentDB]
        exact hdst₁.trans hdst
      · rw [hv1, getCurrentDB_putCurrentDB, if_neg hlen]
        simp [lookup_mapInsert]
      · rw [hv2, getCurrentDB_putCurrentDB, lookup_mapInsert]
        simp [mapInsert]
      · rw [hh, hv1]
        simp)

/-- Claim C10 (witness): source `{m, o}`, string-typed destination. -/
theorem smove_wrongtype_destination_witness :
    let s₁₀ : Store :=
      ⟨fun i =>
        if i = 0 then ⟨[("s", .set [("m", true), ("o", true)]), ("d", .str "x")], []⟩
        else newDatabase, 0⟩
    (s₁₀.SMove "s" "d" "m").1 = true
    ∧ lookup (((s₁₀.SMove "s" "d" "m").2).getCurrentDB).data "d" = some (.str "x")
    ∧ lookup (((s₁₀.SMove "s" "d" "m").2).getCurrentDB).data "s"
        = (if (mapErase [("m", true), ("o", true)] "m").length = 0 then none
           else some (.set (mapErase [("m", true), ("o", true)] "m")))
    ∧ (s₁₀.SMoveV2 "s" "d" "m").1 = true
    ∧ lookup (((s₁₀.SMoveV2 "s" "d" "m").2).getCurrentDB).data "d"
        = some (.set [("m", true)])
    ∧ (handleSMove s₁₀ ["s", "d", "m"]).1 = EncodeInteger 1 := by
  exact smove_wrongtype_destination _ "s" "d" "m" [("m", true), ("o", true)]
    (.str "x") (by decide) (by decide) (by decide) (by intro m' h; cases h)

/-- Claim C1: the claim says EXEC returns a null array and executes
nothing when a watched key was written between WATCH and EXEC.  But
`handleExec` never consults `WatchedKeys` (`CheckWatchedKeys` has no
caller): after WATCH `k` snapshots `A` and another connection sets `k` to
`B` through the shared store, EXEC still executes the queued `SET q 1`
and returns the one-element array reply, not `*-1\r\n`. -/
theorem exec_ignores_watched_keys :
    let sv₀ : Server :=
      ⟨⟨fun i => if i = 0 then ⟨[("k", .str "A")], []⟩ else newDatabase, 0⟩, []⟩
    let svW := (handleWatch sv₀ ["k"] "connA").2
    let svM := (handleMulti svW [] "connA").2
    let svQ := queueCommand svM "connA" "SET" ["q", "1"]
    let svB : Server := { svQ with store := svQ.store.Set "k" "B" }
    (lookup ((getTransactionContext svB "connA").1).WatchedKeys "k"
        = some (some (.str "A")))
    ∧ lookup (svB.store.getCurrentDB).data "k" = some (.str "B")
    ∧ (handleExec 0 svB [] "connA").1 = "*1\r\n+OK\r\n"
    ∧ (handleExec 0 svB [] "connA").1 ≠ "*-1\r\n"
    ∧ lookup (((handleExec 0 svB [] "connA").2).store.getCurrentDB).data "q"
        = some (.str "1") := by
  refine ⟨by decide, by decide, by decide, by decide, by decide⟩

/-- Claim C7: for a key holding a stream with a last ID, XADD with an
explicit ID (not `*`, not `ms-*`) that is not strictly greater than the
last ID fails with the exact ordering error and leaves the store (and
hence the stream) unchanged; with a strictly greater well-formed ID the
call succeeds, the entry is appended (trimming aside) and the ID becomes
the stream's last ID. -/
theorem xadd_explicit_id_ordering (s : Store) (now : Int) (key id : String)
    (fields : GoMap String) (maxLen : Int) (approx : Bool) (st : Stream)
    (h1 : lookup (s.getCurrentDB).data key = some (.stream st))
    (h2 : st.LastID ≠ "")
    (h3 : id ≠ "*")
    (h4 : goHasSuffixDashStar id = false) :
    (compareStreamIDs id st.LastID ≤ 0 →
       s.XAdd now key id fields maxLen approx =
         (.error "ERR The ID specified in XADD is equal or smaller than the target stream top item",
          s))
    ∧ (0 < compareStreamIDs id st.LastID → isValidStreamID id = true →
         (s.XAdd now key id fields maxLen approx).1 = .ok id
         ∧ lookup (((s.XAdd now key id fields maxLen approx).2).getCurrentDB).data key
             = some (.stream (streamAfterAdd st id fields maxLen approx))
         ∧ (streamAfterAdd st id fields maxLen approx).LastID = id
         ∧ (maxLen ≤ 0 →
              (streamAfterAdd st id fields maxLen approx).Entries
                = st.Entries ++ [⟨id, fields⟩])) := by
  constructor
  · intro hle
    have hgen : generateStreamID now st id
        = .error "ERR The ID specified in XADD is equal or smaller than the target stream top item" := by
      simp only [generateStreamID, if_neg h3, h4, Bool.false_eq_true, if_false]
      rw [if_pos ⟨h2, hle⟩]
    simp only [Store.XAdd, h1, hgen]
  · intro hgt hvalid
    have hgen : generateStreamID now st id = .ok id := by
      simp only [generateStreamID, if_neg h3, h4, Bool.false_eq_true, if_false]
      rw [if_neg (by intro hc; omega)]
      rw [if_neg (by simp [hvalid])]
    have hx : s.XAdd now key id fields maxLen approx
        = (.ok id,
           s.putCurrentDB
             ⟨mapInsert (s.getCurrentDB).data key
                (.stream (streamAfterAdd st id fields maxLen approx)),
              (s.getCurrentDB).expiration⟩) := by
      simp only [Store.XAdd, h1, hgen]
    refine ⟨by rw [hx], ?_, ?_, ?_⟩
    · rw [hx, getCurrentDB_putCurrentDB, lookup_mapInsert]
      simp
    · simp only [streamAfterAdd]
      split
      · split
        · split <;> rfl
        · split <;> rfl
      · rfl
    · intro hml
      simp only [streamAfterAdd]
      rw [if_neg (by omega : ¬ maxLen > 0)]

theorem zLT_trans {a b c : ZSetMember} (h₁ : zLT a b) (h₂ : zLT b c) : zLT a c := by
  rcases h₁ with h₁ | ⟨h₁s, h₁m⟩ <;> rcases h₂ with h₂ | ⟨h₂s, h₂m⟩
  · exact Or.inl (lt_trans h₁ h₂)
  · exact Or.inl (h₂s ▸ h₁)
  · exact Or.inl (h₁s ▸ h₂)
  · exact Or.inr ⟨h₁s.trans h₂s, lt_trans h₁m h₂m⟩

theorem zLT_ne {a b : ZSetMember} (h : zLT a b) : a ≠ b := by
  intro he
  subst he
  rcases h with h | ⟨_, h⟩ <;> exact lt_irrefl _ h

theorem not_addPred_zLT {member : String} {score : Score} {m : ZSetMember}
    (h : addPred member score m = false) : zLT m ⟨member, score⟩ := by
  by_cases hs : m.score = score
  · simp only [addPred, if_pos hs, decide_eq_false_iff_not, not_le] at h
    exact Or.inr ⟨hs, h⟩
  · simp only [addPred, if_neg hs, decide_eq_false_iff_not, not_lt] at h
    exact Or.inl (lt_of_le_of_ne h hs)

theorem addPred_zLT_of_ne {member : String} {score : Score} {m : ZSetMember}
    (h : addPred member score m = true) (hne : m.member ≠ member) :
    zLT ⟨member, score⟩ m := by
  by_cases hs : m.score = score
  · simp only [addPred, if_pos hs, decide_eq_true_eq] at h
    exact Or.inr ⟨hs.symm, lt_of_le_of_ne h (Ne.symm hne)⟩
  · simp only [addPred, if_neg hs, decide_eq_true_eq] at h
    exact Or.inl h

theorem mem_insertAt (x y : ZSetMember) :
    ∀ (l : List ZSetMember) (n : Nat), y ∈ insertAt n x l ↔ y = x ∨ y ∈ l := by
  intro l
  induction l with
  | nil =>
    intro n
    cases n <;> simp [insertAt]
  | cons a t ih =>
    intro n
    cases n with
    | zero => simp [insertAt]
    | succ n =>
      simp only [insertAt, List.mem_cons, ih n]
      tauto

theorem pairwise_insertAt (member : String) (score : Score) :
    ∀ (l : List ZSetMember), l.Pairwise zLT →
      (∀ m ∈ l, m.member ≠ member) →
      (insertAt (l.findIdx (addPred member score)) ⟨member, score⟩ l).Pairwise zLT := by
  intro l
  induction l with
  | nil =>
    intro _ _
    simp [insertAt, List.findIdx_nil]
  | cons a t ih =>
    intro hp hnm
    rw [List.pairwise_cons] at hp
    obtain ⟨ha, ht⟩ := hp
    rw [List.findIdx_cons]
    by_cases hpa : addPred member score a = true
    · rw [hpa, cond_true]
      have hxa : zLT ⟨member, score⟩ a :=
        addPred_zLT_of_ne hpa (hnm a (List.mem_cons_self a t))
      refine List.pairwise_cons.mpr ⟨?_, List.pairwise_cons.mpr ⟨ha, ht⟩⟩
      intro b hb
      rcases List.mem_cons.mp hb with hb | hb
      · exact hb ▸ hxa
      · exact zLT_trans hxa (ha b hb)
    · rw [Bool.not_eq_true] at hpa
      rw [hpa, cond_false]
      refine List.pairwise_cons.mpr ⟨?_, ?_⟩
      · intro b hb
        rcases (mem_insertAt _ _ t _).mp hb with hb | hb
        · exact hb ▸ not_addPred_zLT hpa
        · exact ha b hb
      · exact ih ht (fun m hm => hnm m (List.mem_cons_of_mem a hm))

theorem mem_eraseP_of_member_ne {y : ZSetMember} {member : String}
    (hy : y.member ≠ member) :
    ∀ (l : List ZSetMember),
      (y ∈ l.eraseP (fun m => m.member == member) ↔ y ∈ l) := by
  intro l
  induction l with
  | nil => simp
  | cons a t ih =>
    by_cases hpa : a.member = member
    · rw [List.eraseP_cons_of_pos (by simp [hpa])]
      have hya : y ≠ a := by
        intro he
        exact hy (he ▸ hpa)
      simp [List.mem_cons, hya, ih]
    · rw [List.eraseP_cons_of_neg (by simp [hpa])]
      simp only [List.mem_cons, ih]

theorem not_mem_eraseP_of_unique {member : String} :
    ∀ (l : List ZSetMember), l.Nodup →
      (∀ e₁ ∈ l, ∀ e₂ ∈ l, e₁.member = e₂.member → e₁ = e₂) →
      ∀ y : ZSetMember, y.member = member →
        y ∉ l.eraseP (fun m => m.member == member) := by
  intro l
  induction l with
  | nil => simp
  | cons a t ih =>
    intro hnd hu y hy
    rw [List.nodup_cons] at hnd
    by_cases hpa : a.member = member
    · rw [List.eraseP_cons_of_pos (by simp [hpa])]
      intro hmem
      have : y = a :=
        hu y (List.mem_cons_of_mem a hmem) a (List.mem_cons_self a t)
          (by rw [hy, hpa])
      exact hnd.1 (this ▸ hmem)
    · rw [List.eraseP_cons_of_neg (by simp [hpa])]
      intro hmem
      rcases List.mem_cons.mp hmem with he | hmem'
      · exact hpa (he ▸ hy)
      · exact ih hnd.2 (fun e₁ h₁ e₂ h₂ =>
          hu e₁ (List.mem_cons_of_mem a h₁) e₂ (List.mem_cons_of_mem a h₂))
          y hy hmem'

theorem ZSet.Consistent.nodup {zs : ZSet} (h : zs.Consistent) : zs.Sorted.Nodup :=
  h.sorted.imp (fun hab => zLT_ne hab)

theorem ZSet.Consistent.unique {zs : ZSet} (h : zs.Consistent) :
    ∀ e₁ ∈ zs.Sorted, ∀ e₂ ∈ zs.Sorted, e₁.member = e₂.member → e₁ = e₂ := by
  intro e₁ h₁ e₂ h₂ hm
  obtain ⟨m₁, s₁⟩ := e₁
  obtain ⟨m₂, s₂⟩ := e₂
  simp only at hm
  subst hm
  have c₁ : lookup zs.Members m₁ = some s₁ := (h.complete m₁ s₁).mpr h₁
  have c₂ : lookup zs.Members m₁ = some s₂ := (h.complete m₁ s₂).mpr h₂
  rw [c₁] at c₂
  injection c₂ with hs
  rw [hs]

theorem ZSet.Consistent.no_entry_of_lookup_none {zs : ZSet} (h : zs.Consistent)
    {member : String} (hx : lookup zs.Members member = none) :
    ∀ sc, (⟨member, sc⟩ : ZSetMember) ∉ zs.Sorted := by
  intro sc hmem
  have := (h.complete member sc).mpr hmem
  rw [hx] at this
  cases this

theorem ZSet.add_consistent {zs : ZSet} (h : zs.Consistent)
    (member : String) (score : Score) : ((zs.add member score).1).Consistent := by
  cases hex : lookup zs.Members member with
  | none =>
    have hnm : ∀ m ∈ zs.Sorted, m.member ≠ member := by
      intro m hm he
      have : (⟨member, m.score⟩ : ZSetMember) ∈ zs.Sorted := by
        obtain ⟨mm, ms⟩ := m
        simp only at he
        rw [← he]
        exact hm
      exact h.no_entry_of_lookup_none hex m.score this
    refine ⟨?_, ?_⟩
    · simp only [ZSet.add, hex, Option.isSome_none, Bool.false_eq_true, if_false]
      exact pairwise_insertAt member score zs.Sorted h.sorted hnm
    · intro m sc
      simp only [ZSet.add, hex, Option.isSome_none, Bool.false_eq_true, if_false,
        lookup_mapInsert]
      rw [mem_insertAt]
      by_cases hm : m = member
      · subst hm
        simp only [if_pos rfl]
        constructor
        · intro hsc
          injection hsc with hsc
          exact Or.inl (by rw [hsc])
        · intro hor
          rcases hor with he | hmem
          · injection he with _ hsc
            simp [hsc]
          · exact absurd hmem (h.no_entry_of_lookup_none hex sc)
      · simp only [if_neg hm]
        rw [h.complete m sc]
        constructor
        · exact fun hmem => Or.inr hmem
        · intro hor
          rcases hor with he | hmem
          · injection he with hm' _
            exact absurd hm' hm
          · exact hmem
  | some sc₀ =>
    have hnm : ∀ m ∈ zs.Sorted.eraseP (fun m => m.member == member),
        m.member ≠ member := by
      intro m hm he
      exact not_mem_eraseP_of_unique zs.Sorted h.nodup h.unique m he hm
    have hps : (zs.Sorted.eraseP (fun m => m.member == member)).Pairwise zLT :=
      h.sorted.sublist (List.eraseP_sublist zs.Sorted)
    refine ⟨?_, ?_⟩
    · simp only [ZSet.add, hex, Option.isSome_some, if_true]
      exact pairwise_insertAt member score _ hps hnm
    · intro m sc
      simp only [ZSet.add, hex, Option.isSome_some, if_true, lookup_mapInsert]
      rw [mem_insertAt]
      by_cases hm : m = member
      · subst hm
        simp only [if_pos rfl]
        constructor
        · intro hsc
          injection hsc with hsc
          exact Or.inl (by rw [hsc])
        · intro hor
          rcases hor with he | hmem
          · injection he with _ hsc
            simp [hsc]
          · exact absurd rfl (hnm _ hmem)
      · simp only [if_neg hm]
        rw [h.complete m sc, ← mem_eraseP_of_member_ne (y := ⟨m, sc⟩) hm zs.Sorted]
        constructor
        · exact fun hmem => Or.inr hmem
        · intro hor
          rcases hor with he | hmem
          · injection he with hm' _
            exact absurd hm' hm
          · exact hmem

theorem ZSet.remove_consistent {zs : ZSet} (h : zs.Consistent)
    (member : String) : ((zs.remove member).1).Consistent := by
  cases hex : lookup zs.Members member with
  | none =>
    simpa [ZSet.remove, hex] using h
  | some sc₀ =>
    refine ⟨?_, ?_⟩
    · simp only [ZSet.remove, hex, Option.isSome_some, if_true]
      exact h.sorted.sublist (List.eraseP_sublist zs.Sorted)
    · intro m sc
      simp only [ZSet.remove, hex, Option.isSome_some, if_true, lookup_mapErase]
      by_cases hm : m = member
      · subst hm
        simp only [if_pos rfl]
        constructor
        · intro hc
          cases hc
        · intro hmem
          exact absurd hmem
            (not_mem_eraseP_of_unique zs.Sorted h.nodup h.unique _ rfl)
      · simp only [if_neg hm]
        rw [h.complete m sc, ← mem_eraseP_of_member_ne (y := ⟨m, sc⟩) hm zs.Sorted]

theorem ZSet.applyOp_consistent {zs : ZSet} (h : zs.Consistent) (op : ZOp) :
    (zs.applyOp op).Consistent := by
  cases op with
  | addOp m sc => exact ZSet.add_consistent h m sc
  | remOp m => exact ZSet.remove_consistent h m
  | incrOp m d => exact ZSet.add_consistent h m _

theorem ZSet.applyOps_consistent :
    ∀ (ops : List ZOp) (zs : ZSet), zs.Consistent → (zs.applyOps ops).Consistent := by
  intro ops
  induction ops with
  | nil => exact fun zs h => h
  | cons op rest ih =>
    intro zs h
    exact ih (zs.applyOp op) (ZSet.applyOp_consistent h op)

theorem newZSet_consistent : newZSet.Consistent := by
  refine ⟨List.Pairwise.nil, ?_⟩
  intro m sc
  simp [newZSet, lookup]

/-! ## Association-list lemmas for the persistence chain -/

theorem lookup_none_of_not_mem_keys {α : Type} :
    ∀ (l : GoMap α) (k : String), k ∉ l.map Prod.fst → lookup l k = none := by
  intro l
  induction l with
  | nil => intro k _; rfl
  | cons p t ih =>
    intro k hk
    simp only [List.map_cons, List.mem_cons] at hk
    push_neg at hk
    obtain ⟨pk, pv⟩ := p
    simp only [lookup, if_neg hk.1]
    exact ih k hk.2

theorem keys_keyedFilterMap_sublist {α β : Type} (g : String → α → Option β) :
    ∀ (l : GoMap α),
      List.Sublist ((keyedFilterMap g l).map Prod.fst) (l.map Prod.fst) := by
  intro l
  induction l with
  | nil => simp [keyedFilterMap]
  | cons p t ih =>
    obtain ⟨pk, pv⟩ := p
    cases hg : g pk pv with
    | none =>
      rw [show keyedFilterMap g ((pk, pv) :: t) = keyedFilterMap g t by
        simp [keyedFilterMap, List.filterMap_cons, hg]]
      simp only [List.map_cons]
      exact ih.cons pk
    | some b =>
      rw [show keyedFilterMap g ((pk, pv) :: t) = (pk, b) :: keyedFilterMap g t by
        simp [keyedFilterMap, List.filterMap_cons, hg]]
      simp only [List.map_cons]
      exact ih.cons₂ pk

theorem nodup_keyedFilterMap {α β : Type} (g : String → α → Option β)
    (l : GoMap α) (hnd : (l.map Prod.fst).Nodup) :
    ((keyedFilterMap g l).map Prod.fst).Nodup :=
  hnd.sublist (keys_keyedFilterMap_sublist g l)

theorem lookup_keyedFilterMap {α β : Type} (g : String → α → Option β) :
    ∀ (l : GoMap α) (k : String), (l.map Prod.fst).Nodup →
      lookup (keyedFilterMap g l) k = (lookup l k).bind (g k) := by
  intro l
  induction l with
  | nil => intro k _; rfl
  | cons p t ih =>
    intro k hnd
    obtain ⟨pk, pv⟩ := p
    simp only [List.map_cons, List.nodup_cons] at hnd
    by_cases hk : k = pk
    · subst hk
      cases hg : g k pv with
      | none =>
        rw [show keyedFilterMap g ((k, pv) :: t) = keyedFilterMap g t by
          simp [keyedFilterMap, List.filterMap_cons, hg]]
        rw [ih k hnd.2, lookup_none_of_not_mem_keys t k hnd.1]
        simp [lookup, hg]
      | some b =>
        rw [show keyedFilterMap g ((k, pv) :: t) = (k, b) :: keyedFilterMap g t by
          simp [keyedFilterMap, List.filterMap_cons, hg]]
        simp [lookup, hg]
    · cases hg : g pk pv with
      | none =>
        rw [show keyedFilterMap g ((pk, pv) :: t) = keyedFilterMap g t by
          simp [keyedFilterMap, List.filterMap_cons, hg]]
        rw [ih k hnd.2]
        simp [lookup, if_neg hk]
      | some b =>
        rw [show keyedFilterMap g ((pk, pv) :: t) = (pk, b) :: keyedFilterMap g t by
          simp [keyedFilterMap, List.filterMap_cons, hg]]
        simp only [lookup, if_neg hk]
        exact ih k hnd.2

theorem lookup_foldl_mapInsert_not_mem {α β : Type} (f : β → α) :
    ∀ (l : GoMap β) (acc : GoMap α) (k : String), k ∉ l.map Prod.fst →
      lookup (l.foldl (fun acc p => mapInsert acc p.1 (f p.2)) acc) k
        = lookup acc k := by
  intro l
  induction l with
  | nil => intro acc k _; rfl
  | cons p t ih =>
    intro acc k hk
    obtain ⟨pk, pv⟩ := p
    simp only [List.map_cons, List.mem_cons] at hk
    push_neg at hk
    simp only [List.foldl_cons]
    rw [ih (mapInsert acc pk (f pv)) k hk.2, lookup_mapInsert, if_neg hk.1]

theorem lookup_foldl_mapInsert {α β : Type} (f : β → α) :
    ∀ (l : GoMap β) (acc : GoMap α) (k : String), (l.map Prod.fst).Nodup →
      lookup (l.foldl (fun acc p => mapInsert acc p.1 (f p.2)) acc) k
        = (match lookup l k with
           | some v => some (f v)
           | none => lookup acc k) := by
  intro l
  induction l with
  | nil => intro acc k _; rfl
  | cons p t ih =>
    intro acc k hnd
    obtain ⟨pk, pv⟩ := p
    simp only [List.map_cons, List.nodup_cons] at hnd
    simp only [List.foldl_cons]
    by_cases hk : k = pk
    · subst hk
      rw [lookup_foldl_mapInsert_not_mem f t _ k hnd.1, lookup_mapInsert, if_pos rfl]
      simp [lookup]
    · rw [ih (mapInsert acc pk (f pv)) k hnd.2]
      simp only [lookup, if_neg hk]
      cases lookup t k with
      | none => simp only [lookup_filter_ne, if_neg hk]
      | some v => rfl

/-- Claim C6: after any sequence of sorted-set mutations (ZADD
insert/update, ZREM, ZINCRBY — the store-level commands fold exactly these
per-member operations) starting from the empty sorted set, the ordered
projection is strictly sorted by ascending (score, member) and its entries
are exactly the graph of the by-member score lookup; in particular the two
projections contain the same members.  This says the ordered projection is
`sort_by(score ASC, member ASC)` of the by-member lookup. -/
theorem zset_projections_consistent (ops : List ZOp) :
    (ZSet.applyOps newZSet ops).Sorted.Pairwise zLT
    ∧ (∀ m sc, lookup (ZSet.applyOps newZSet ops).Members m = some sc ↔
         (⟨m, sc⟩ : ZSetMember) ∈ (ZSet.applyOps newZSet ops).Sorted)
    ∧ (∀ m, (lookup (ZSet.applyOps newZSet ops).Members m).isSome ↔
         ∃ sc, (⟨m, sc⟩ : ZSetMember) ∈ (ZSet.applyOps newZSet ops).Sorted) := by
  have h := ZSet.applyOps_consistent ops newZSet newZSet_consistent
  refine ⟨h.sorted, h.complete, ?_⟩
  intro m
  rw [Option.isSome_iff_exists]
  constructor
  · rintro ⟨sc, hsc⟩
    exact ⟨sc, (h.complete m sc).mp hsc⟩
  · rintro ⟨sc, hsc⟩
    exact ⟨sc, (h.complete m sc).mpr hsc⟩

/-- Claim C4 (counterexample): a list value in database 0 and a string in
database 1, none expired; after snapshot write → restart → snapshot read
both are gone, because `Store.Save` persists only database 0 and only
string values (the source's own TODO comments note this). -/
theorem snapshot_roundtrip_drops_values :
    let s₄ : Store :=
      ⟨fun i =>
        if i = 0 then ⟨[("l", .list ["x"])], []⟩
        else if i = 1 then ⟨[("k", .str "v")], []⟩
        else newDatabase, 0⟩
    lookup ((s₄.databases 0).data) "l" = some (.list ["x"])
    ∧ lookup ((s₄.databases 0).expiration) "l" = none
    ∧ lookup ((s₄.databases 1).data) "k" = some (.str "v")
    ∧ lookup (((snapshotRoundTrip s₄ 0).databases 0).data) "l" = none
    ∧ lookup (((snapshotRoundTrip s₄ 0).databases 1).data) "k" = none := by
  refine ⟨by decide, by decide, by decide, by decide, by decide⟩

/-- Claim C4 (amended): the snapshot round-trip restores exactly the
string-typed keys of database 0 (dropping those whose expiration instant
passed, and keeping their expiration records); every non-string value and
every other database is lost. -/
theorem snapshot_roundtrip_only_db0_strings (s : Store) (now : Int)
    (hnd : ((s.databases 0).data.map Prod.fst).Nodup) :
    (∀ k, lookup ((snapshotRoundTrip s now).databases 0).data k
        = match lookup (s.databases 0).data k with
          | some (RedisValue.str v) =>
            if (s.databases 0).isExpired now k then none else some (RedisValue.str v)
          | _ => none)
    ∧ (∀ k, lookup ((snapshotRoundTrip s now).databases 0).expiration k
        = match lookup (s.databases 0).data k with
          | some (RedisValue.str _) =>
            if (s.databases 0).isExpired now k then none
            else lookup (s.databases 0).expiration k
          | _ => none)
    ∧ (∀ i k, i ≠ 0 →
         lookup ((snapshotRoundTrip s now).databases i).data k = none) := by
  have nd₁ :=
    nodup_keyedFilterMap
      (fun _ v => match v with | RedisValue.str sv => some sv | _ => none)
      (s.databases 0).data hnd
  have nd₂ := nodup_keyedFilterMap
    (fun _ v => some (⟨PDataType.StringType, v⟩ : SerializedValue)) _ nd₁
  have nd₃ := nodup_keyedFilterMap
    (fun k v =>
      match lookup (s.databases 0).expiration k with
      | some t => if now > t then none else some v
      | none => some v) _ nd₂
  have nd₄ := nodup_keyedFilterMap
    (fun _ (sv : SerializedValue) =>
      if sv.typeTag = PDataType.StringType then some sv.StringValue else none) _ nd₃
  refine ⟨?_, ?_, ?_⟩
  · intro k
    simp only [snapshotRoundTrip, Store.Load, Store.Save, persistenceSave,
      persistenceLoad, loadDatabaseSnapshot, Store.initial, newDatabase,
      eq_self_iff_true, if_true]
    rw [lookup_foldl_mapInsert RedisValue.str _ _ k nd₄,
      lookup_keyedFilterMap _ _ k nd₃, lookup_keyedFilterMap _ _ k nd₂,
      lookup_keyedFilterMap _ _ k nd₁, lookup_keyedFilterMap _ _ k hnd]
    cases hv : lookup (s.databases 0).data k with
    | none => simp [lookup]
    | some v =>
      cases v with
      | str sv =>
        cases he : lookup (s.databases 0).expiration k with
        | none => simp [Database.isExpired, he, lookup]
        | some t =>
          by_cases hnt : now > t
          · simp [Database.isExpired, he, hnt, lookup]
          · simp [Database.isExpired, he, hnt, lookup]
      | list a => simp [lookup]
      | hash a => simp [lookup]
      | set a => simp [lookup]
      | zset a => simp [lookup]
      | stream a => simp [lookup]
  · intro k
    simp only [snapshotRoundTrip, Store.Load, Store.Save, persistenceSave,
      persistenceLoad, loadDatabaseSnapshot, Store.initial, newDatabase,
      eq_self_iff_true, if_true]
    rw [lookup_keyedFilterMap _ _ k nd₃, lookup_keyedFilterMap _ _ k nd₂,
      lookup_keyedFilterMap _ _ k nd₁, lookup_keyedFilterMap _ _ k hnd]
    cases hv : lookup (s.databases 0).data k with
    | none => simp
    | some v =>
      cases v with
      | str sv =>
        cases he : lookup (s.databases 0).expiration k with
        | none => simp [Database.isExpired, he]
        | some t =>
          by_cases hnt : now > t
          · simp [Database.isExpired, he, hnt]
          · simp [Database.isExpired, he, hnt]
      | list a => simp
      | hash a => simp
      | set a => simp
      | zset a => simp
      | stream a => simp
  · intro i k hi
    simp [snapshotRoundTrip, Store.Load, Store.initial, newDatabase, if_neg hi,
      lookup]

/-- Claim C4 (amended, witness): instantiation at a store holding a fresh
string `a`, an expired string `b` and a list `l` in database 0, evaluated
at the keys `a` and `l`. -/
theorem snapshot_roundtrip_only_db0_strings_witness :
    (lookup ((snapshotRoundTrip
        ⟨fun i =>
          if i = 0 then
            ⟨[("a", .str "1"), ("b", .str "2"), ("l", .list ["x"])], [("b", 3)]⟩
          else newDatabase, 0⟩ 10).databases 0).data "a"
        = match lookup ((⟨fun i =>
            if i = 0 then
              ⟨[("a", .str "1"), ("b", .str "2"), ("l", .list ["x"])], [("b", 3)]⟩
            else newDatabase, 0⟩ : Store).databases 0).data "a" with
          | some (RedisValue.str v) =>
            if ((⟨fun i =>
                if i = 0 then
                  ⟨[("a", .str "1"), ("b", .str "2"), ("l", .list ["x"])], [("b", 3)]⟩
                else newDatabase, 0⟩ : Store).databases 0).isExpired 10 "a" then none
            else some (RedisValue.str v)
          | _ => none)
    ∧ (lookup ((snapshotRoundTrip
        ⟨fun i =>
          if i = 0 then
            ⟨[("a", .str "1"), ("b", .str "2"), ("l", .list ["x"])], [("b", 3)]⟩
          else newDatabase, 0⟩ 10).databases 0).data "l"
        = match lookup ((⟨fun i =>
            if i = 0 then
              ⟨[("a", .str "1"), ("b", .str "2"), ("l", .list ["x"])], [("b", 3)]⟩
            else newDatabase, 0⟩ : Store).databases 0).data "l" with
          | some (RedisValue.str v) =>
            if ((⟨fun i =>
                if i = 0 then
                  ⟨[("a", .str "1"), ("b", .str "2"), ("l", .list ["x"])], [("b", 3)]⟩
                else newDatabase, 0⟩ : Store).databases 0).isExpired 10 "l" then none
            else some (RedisValue.str v)
          | _ => none) := by
  refine ⟨?_, ?_⟩
  · exact (snapshot_roundtrip_only_db0_strings _ 10 (by decide)).1 "a"
  · exact (snapshot_roundtrip_only_db0_strings _ 10 (by decide)).1 "l"

/-- Claim C5 (counterexample): with a non-empty AOF (`SET b 2`) the
snapshot key `a` is still present after startup: `store.New` loads the
snapshot unconditionally before `initializeAOF` replays the AOF on top, so
the starting keyspace is not rebuilt solely from the AOF. -/
theorem startup_does_not_ignore_snapshot :
    let snap₅ : DataSnapshot :=
      ⟨fun i => if i = 0 then ⟨[("a", ⟨.StringType, "1"⟩)], []⟩ else ⟨[], []⟩⟩
    lookup ((serverStartup snap₅ 0 true [["SET", "b", "2"]]).databases 0).data "a"
        = some (.str "1")
    ∧ lookup ((serverStartup snap₅ 0 true [["SET", "b", "2"]]).databases 0).data "b"
        = some (.str "2") := by
  refine ⟨by decide, by decide⟩

/-- Replaying AOF commands that are all `SET`s of other keys preserves a
key of database 0 (`executeCommandDirectly`'s SET branch touches only its
own key and never changes the selected database). -/
theorem loadFromAOF_preserves_other_key (now : Int) (k v : String) :
    ∀ (cmds : List (List String)) (st : Store),
      (∀ c ∈ cmds, ∃ key val rest, c = "SET" :: key :: val :: rest ∧ key ≠ k) →
      st.currentDB = 0 →
      lookup (st.databases 0).data k = some (.str v) →
      (loadFromAOF now st cmds).currentDB = 0
      ∧ lookup ((loadFromAOF now st cmds).databases 0).data k = some (.str v) := by
  intro cmds
  induction cmds with
  | nil =>
    intro st _ h1 h2
    exact ⟨h1, h2⟩
  | cons c rest ih =>
    intro st hall h1 h2
    obtain ⟨key, val, r, hc, hkey⟩ := hall c (List.mem_cons_self c rest)
    subst hc
    have hup : goToUpper "SET" = "SET" := by decide
    have hexec :
        executeCommandDirectly now st ("SET" :: key :: val :: r)
          = st.Set key val := by
      simp [executeCommandDirectly, hup]
    have hset_cur : (st.Set key val).currentDB = 0 := h1
    have hset_lookup :
        lookup ((st.Set key val).databases 0).data k = some (.str v) := by
      simp only [Store.Set, Store.putCurrentDB, Store.getCurrentDB, h1]
      simp only [eq_self_iff_true, if_true]
      rw [lookup_mapInsert]
      rw [if_neg (fun he => hkey he.symm)]
      exact h2
    have hguard : ("SET" :: key :: val :: r).length > 0 := by simp
    simp only [loadFromAOF, List.foldl_cons, if_pos hguard, hexec]
    have := ih (st.Set key val)
      (fun c hc => hall c (List.mem_cons_of_mem _ hc)) hset_cur hset_lookup
    simpa [loadFromAOF] using this

/-- Claim C5 (amended): on startup the snapshot is always loaded first —
`store.New` calls `Load` unconditionally — and, when AOF is enabled, the
AOF commands are replayed on top of the snapshot-derived keyspace rather
than into an empty one: any snapshot string key of database 0 that no
replayed command overwrites is still present, even though the AOF is
non-empty. -/
theorem startup_always_loads_snapshot (snap : DataSnapshot) (now : Int)
    (k v : String) (cmds : List (List String))
    (hnd : ((snap.Databases 0).Data.map Prod.fst).Nodup)
    (hdata : lookup (snap.Databases 0).Data k = some ⟨.StringType, v⟩)
    (hexp : lookup (snap.Databases 0).Expiration k = none)
    (hcmds : ∀ c ∈ cmds, ∃ key val rest, c = "SET" :: key :: val :: rest ∧ key ≠ k) :
    lookup ((serverStartup snap now true cmds).databases 0).data k
      = some (.str v) := by
  have ndk := nodup_keyedFilterMap
    (fun key v =>
      match lookup (snap.Databases 0).Expiration key with
      | some t => if now > t then none else some v
      | none => some v) _ hnd
  have ndl := nodup_keyedFilterMap
    (fun _ (sv : SerializedValue) =>
      if sv.typeTag = PDataType.StringType then some sv.StringValue else none) _ ndk
  have h0 : lookup ((Store.Load Store.initial now snap).databases 0).data k
      = some (.str v) := by
    simp only [Store.Load, persistenceLoad, loadDatabaseSnapshot, Store.initial,
      newDatabase, eq_self_iff_true, if_true]
    rw [lookup_foldl_mapInsert RedisValue.str _ _ k ndl,
      lookup_keyedFilterMap _ _ k ndk, lookup_keyedFilterMap _ _ k hnd, hdata]
    simp [hexp]
  have h0cur : (Store.Load Store.initial now snap).currentDB = 0 := rfl
  have := loadFromAOF_preserves_other_key now k v cmds
    (Store.Load Store.initial now snap) hcmds h0cur h0
  simpa [serverStartup] using this.2

/-- Claim C5 (amended, witness): snapshot key `a`, replay `SET b 2`. -/
theorem startup_always_loads_snapshot_witness :
    lookup ((serverStartup
        ⟨fun i => if i = 0 then ⟨[("a", ⟨.StringType, "1"⟩)], []⟩ else ⟨[], []⟩⟩
        0 true [["SET", "b", "2"]]).databases 0).data "a"
      = some (.str "1") := by
  exact startup_always_loads_snapshot _ 0 "a" "1" [["SET", "b", "2"]]
    (by decide) (by decide) (by decide)
    (by
      intro c hc
      simp only [List.mem_cons, List.not_mem_nil, or_false] at hc
      subst hc
      exact ⟨"b", "2", [], rfl, by decide⟩)

/-- Claim C7 (witness): a stream whose last ID is `1-1`; XADD `1-1`
fails with the ordering error and XADD `2-0` appends. -/
theorem xadd_explicit_id_ordering_witness :
    let st₇ : Stream := ⟨[⟨"1-1", [("k", "v")]⟩], "1-1", "1-1"⟩
    let s₇ : Store :=
      ⟨fun i => if i = 0 then ⟨[("x", .stream st₇)], []⟩ else newDatabase, 0⟩
    (s₇.XAdd 5 "x" "1-1" [("k", "v")] 0 false =
      (.error "ERR The ID specified in XADD is equal or smaller than the target stream top item",
       s₇))
    ∧ (s₇.XAdd 5 "x" "2-0" [("k", "v")] 0 false).1 = .ok "2-0"
    ∧ (streamAfterAdd st₇ "2-0" [("k", "v")] 0 false).Entries
        = st₇.Entries ++ [⟨"2-0", [("k", "v")]⟩] := by
  refine ⟨?_, ?_, ?_⟩
  · exact (xadd_explicit_id_ordering
      ⟨fun i => if i = 0 then
          ⟨[("x", .stream ⟨[⟨"1-1", [("k", "v")]⟩], "1-1", "1-1"⟩)], []⟩
        else newDatabase, 0⟩
      5 "x" "1-1" [("k", "v")] 0 false ⟨[⟨"1-1", [("k", "v")]⟩], "1-1", "1-1"⟩
      (by decide) (by decide) (by decide) (by decide)).1 (by decide)
  · exact ((xadd_explicit_id_ordering
      ⟨fun i => if i = 0 then
          ⟨[("x", .stream ⟨[⟨"1-1", [("k", "v")]⟩], "1-1", "1-1"⟩)], []⟩
        else newDatabase, 0⟩
      5 "x" "2-0" [("k", "v")] 0 false ⟨[⟨"1-1", [("k", "v")]⟩], "1-1", "1-1"⟩
      (by decide) (by decide) (by decide) (by decide)).2 (by decide) (by decide)).1
  · exact ((xadd_explicit_id_ordering
      ⟨fun i => if i = 0 then
          ⟨[("x", .stream ⟨[⟨"1-1", [("k", "v")]⟩], "1-1", "1-1"⟩)], []⟩
        else newDatabase, 0⟩
      5 "x" "2-0" [("k", "v")] 0 false ⟨[⟨"1-1", [("k", "v")]⟩], "1-1", "1-1"⟩
      (by decide) (by decide) (by decide) (by decide)).2 (by decide)
        (by decide)).2.2.2 (by decide)

end Keyra
